import Mathlib

/-!
Shallow embedding of the Candidate Ranking Engine of the
Talent-Acquisition-Agent repository, together with theorems settling the
specification claims about it.

The backend service code embedded here is
`src/backend/src/candidates/candidates.service.ts` (in particular
`calculateYearsOfExperience`) and the validation metadata of
`RankCandidatesDto` plus the frontend check in
`src/frontend/src/components/RankingForm.tsx`.  The per-dimension scoring
algorithms are embedded from the algorithm blocks of `src/README.md`
(Semantic Scoring System guide); the parts of the AI-service scorer whose
code is absent from the repository snapshot are modelled from the spec and
marked as such in their doc comments.
-/

/-! ## Basic string utilities -/

/-- The empty string, named so that it can be passed as a plain argument. -/
def emptyStr : String := ""

/-- A single space, used as separator when concatenating profile text. -/
def spaceStr : String := " "

/-- The lower-case word the source compares end dates against
(`exp.endDate.toLowerCase() === 'present'`). -/
def presentStr : String := "present"

/-- The character list of a string, lower-cased.  All string computation
below works on character lists so that every definition evaluates by
plain reduction. -/
def lowerChars (s : String) : List Char :=
  s.data.map Char.toLower

/-- Is `needle` a contiguous infix of `hay`? -/
def infixOf (needle hay : List Char) : Bool :=
  (List.range (hay.length + 1)).any (fun i => needle.isPrefixOf (hay.drop i))

/-- Case-insensitive substring test: does `hay` contain `needle`
(both compared lower-cased)?  Models the case-insensitive substring
matching used by the education keyword table. -/
def lowerContains (hay needle : String) : Bool :=
  infixOf (lowerChars needle) (lowerChars hay)

/-- Split a character list at every separator recognized by `p`,
keeping empty groups (like JavaScript `split`). -/
def splitPred (p : Char → Bool) : List Char → List (List Char)
  | [] => [[]]
  | c :: rest =>
      match splitPred p rest with
      | [] => [[]]
      | g :: gs => if p c then [] :: g :: gs else (c :: g) :: gs

/-! ## Calendar model

The source reads only `getFullYear()` and `getMonth()` from parsed `Date`
values, so a date is embedded as a year plus a 0-based month, exactly the
pair of observations the code makes. -/

/-- A calendar instant as the source observes it: `year` is
`getFullYear()`, `month` is the 0-based `getMonth()`. -/
structure YM where
  year : Int
  month : Int
deriving DecidableEq

/-- Read a non-empty all-digit character group as a number. -/
def digitsToNat? (l : List Char) : Option Nat :=
  if l.isEmpty then none
  else if l.all Char.isDigit then
    some (l.foldl (fun a c => a * 10 + (c.toNat - 48)) 0)
  else none

/-- Helper for `parseDate`: build a `YM` from the year and month digit
groups, rejecting out-of-range months. -/
def mkYM (y m : List Char) : Option YM :=
  match digitsToNat? y, digitsToNat? m with
  | some yn, some mn =>
      if 1 ≤ mn ∧ mn ≤ 12 then some ⟨(yn : Int), (mn : Int) - 1⟩ else none
  | _, _ => none

/-- Models ECMAScript `new Date(s)` restricted to ISO-8601 date strings
`YYYY-MM` and `YYYY-MM-DD`: a well-formed ISO string yields its year and
0-based month, anything else yields `none`, standing for JavaScript's
`Invalid Date` (whose `getFullYear()`/`getMonth()` are `NaN`). -/
def parseDate (s : String) : Option YM :=
  match splitPred (fun c => c == '-') s.data with
  | [y, m] => mkYM y m
  | [y, m, d] =>
      match digitsToNat? d with
      | some dn => if 1 ≤ dn ∧ dn ≤ 31 then mkYM y m else none
      | none => none
  | _ => none

/-- The month count the source computes between two valid dates:
`(end.getFullYear() - start.getFullYear()) * 12 + (end.getMonth() - start.getMonth())`. -/
def monthsBetween (s en : YM) : Int :=
  (en.year - s.year) * 12 + (en.month - s.month)

/-! ## Data model (from the entity interfaces and DTOs) -/

/-- One work-history entry (interface `Experience` of the candidate
entity).  `endDate` is optional because the parsed data fed to
`calculateYearsOfExperience` is untyped (`any[]`) and may lack the field;
the source then throws on `exp.endDate.toLowerCase()`. -/
structure ExperienceEntry where
  title : String
  company : String
  startDate : String
  endDate : Option String
  description : String
deriving DecidableEq

/-- One education entry (interface `Education` of the candidate entity). -/
structure EducationEntry where
  degree : String
  institution : String
  startDate : String
  endDate : String
deriving DecidableEq

/-- The job requirement (fields of `RankCandidatesDto`, with the optional
fields already defaulted as the backend does before calling the scorer). -/
structure JobRequirement where
  title : String
  description : String
  requiredSkills : List String
  preferredSkills : List String
  minYearsExperience : ℚ
  requiredEducation : String

/-- The candidate profile as the scorer receives it. -/
structure CandidateProfile where
  id : String
  skills : List String
  experience : List ExperienceEntry
  education : List EducationEntry
  yearsOfExperience : ℚ

/-! ## Years-of-experience derivation (`calculateYearsOfExperience`)

JavaScript number semantics are made explicit: `Option Int` is a month
count where `none` stands for `NaN` (an invalid date poisons the sum,
since `NaN + x = NaN`), and `Except Unit` records the `TypeError` thrown
by `exp.endDate.toLowerCase()` when `endDate` is missing. -/

/-- Month contribution of one entry, as the loop body computes it: parse
the start date, resolve the end date (`present`, case-insensitively,
becomes `now`), and subtract; any invalid date makes the contribution
`NaN` (`none`); a missing `endDate` throws. -/
def monthsOf (now : YM) (e : ExperienceEntry) : Except Unit (Option Int) :=
  match e.endDate with
  | none => Except.error ()
  | some ed =>
      match parseDate e.startDate,
            (if lowerChars ed == presentStr.data then some now else parseDate ed) with
      | some s, some en => Except.ok (some (monthsBetween s en))
      | _, _ => Except.ok none

/-- `NaN`-propagating addition of month counts (`totalMonths += months`). -/
def combineNaN : Option Int → Option Int → Option Int
  | some a, some b => some (a + b)
  | _, _ => none

/-- The summation loop of `calculateYearsOfExperience`. -/
def addMonths (now : YM) : List ExperienceEntry → Except Unit (Option Int)
  | [] => Except.ok (some 0)
  | e :: rest =>
      match monthsOf now e with
      | Except.error u => Except.error u
      | Except.ok m =>
          match addMonths now rest with
          | Except.error u => Except.error u
          | Except.ok tl => Except.ok (combineNaN m tl)

/-- JavaScript `Math.round(q * 10) / 10` on a finite value: round half
toward positive infinity, then divide by ten. -/
def jsRound10 (q : ℚ) : ℚ :=
  ((⌊q * 10 + 1 / 2⌋ : Int) : ℚ) / 10

/-- Final conversion of the source: `Math.round(totalMonths / 12 * 10) / 10`. -/
def yearsFn (m : Int) : ℚ := jsRound10 ((m : ℚ) / 12)

/-- Lift the month total to the returned years value, preserving thrown
errors and `NaN`. -/
def calcFromMonths : Except Unit (Option Int) → Except Unit (Option ℚ)
  | Except.error u => Except.error u
  | Except.ok tl => Except.ok (tl.map yearsFn)

/-- `calculateYearsOfExperience` of `candidates.service.ts`:
a missing (`none`) or empty experience list returns `0`; otherwise the
month contributions are summed and converted to years rounded to one
decimal.  `now` is the value of `new Date()` (all reads assumed equal
here; see `calcYearsClocked` for the per-read instrumentation). -/
def calculateYearsOfExperience
    (experience : Option (List ExperienceEntry)) (now : YM) :
    Except Unit (Option ℚ) :=
  match experience with
  | none => Except.ok (some 0)
  | some [] => Except.ok (some 0)
  | some exps => calcFromMonths (addMonths now exps)

/-! ## Clock-instrumented variant (for the read-once-per-invocation claim)

The same function, with every evaluation of `new Date()` made explicit:
`clock k` is the value returned by the k-th read.  The source evaluates
`new Date()` once per entry whose end date is `present`. -/

/-- Month contribution of one entry with explicit clock reads; returns the
contribution together with the next read index. -/
def monthsOfClocked (clock : Nat → YM) (k : Nat) (e : ExperienceEntry) :
    Except Unit (Option Int × Nat) :=
  match e.endDate with
  | none => Except.error ()
  | some ed =>
      if lowerChars ed == presentStr.data then
        match parseDate e.startDate with
        | some s => Except.ok (some (monthsBetween s (clock k)), k + 1)
        | none => Except.ok (none, k + 1)
      else
        match parseDate e.startDate, parseDate ed with
        | some s, some en => Except.ok (some (monthsBetween s en), k)
        | _, _ => Except.ok (none, k)

/-- The summation loop with explicit clock reads. -/
def addMonthsClocked (clock : Nat → YM) :
    List ExperienceEntry → Nat → Except Unit (Option Int × Nat)
  | [], k => Except.ok (some 0, k)
  | e :: rest, k =>
      match monthsOfClocked clock k e with
      | Except.error u => Except.error u
      | Except.ok (m, k') =>
          match addMonthsClocked clock rest k' with
          | Except.error u => Except.error u
          | Except.ok (tl, k'') => Except.ok (combineNaN m tl, k'')

/-- Final step of the clock-instrumented computation. -/
def calcFromMonthsClocked : Except Unit (Option Int × Nat) → Except Unit (Option ℚ)
  | Except.error u => Except.error u
  | Except.ok (tl, _) => Except.ok (tl.map yearsFn)

/-- `calculateYearsOfExperience` with every `new Date()` read instrumented:
the k-th read returns `clock k`. -/
def calcYearsClocked
    (experience : Option (List ExperienceEntry)) (clock : Nat → YM) :
    Except Unit (Option ℚ) :=
  match experience with
  | none => Except.ok (some 0)
  | some [] => Except.ok (some 0)
  | some exps => calcFromMonthsClocked (addMonthsClocked clock exps 0)

/-! ## Spec-side years derivation (for the refinement claim) -/

/-- Well-formedness of one entry: the start date parses, the end date is
present, and it is either the word `present` (case-insensitively) or a
parseable date. -/
def entryWF (e : ExperienceEntry) : Bool :=
  (parseDate e.startDate).isSome &&
    (match e.endDate with
     | none => false
     | some ed => lowerChars ed == presentStr.data || (parseDate ed).isSome)

/-- All entries of the list are well-formed. -/
def wellFormed (exps : List ExperienceEntry) : Bool :=
  exps.all entryWF

/-- Month contribution of one well-formed entry, written as the spec words
it: parse the two dates, substitute the evaluation timestamp for a
case-insensitive `present`, and take
`(endYear - startYear) * 12 + (endMonth - startMonth)`.  (The `getD`
defaults are never reached on well-formed entries.) -/
def specEntryMonths (now : YM) (e : ExperienceEntry) : Int :=
  let s := (parseDate e.startDate).getD ⟨0, 0⟩
  let en :=
    match e.endDate with
    | some ed => if lowerChars ed == presentStr.data then now else (parseDate ed).getD ⟨0, 0⟩
    | none => (⟨0, 0⟩ : YM)
  monthsBetween s en

/-- The spec's derivation: sum the per-entry month counts (overlaps simply
add), divide by 12 and round to one decimal place. -/
def specYearsOfExperience (exps : List ExperienceEntry) (now : YM) : ℚ :=
  jsRound10 ((((exps.map (specEntryMonths now)).sum : Int) : ℚ) / 12)

/-! ## Dimension scorers (from the algorithm blocks of `src/README.md`) -/

/-- Python `str.split()`: split on whitespace runs, dropping empty tokens. -/
def pySplit (s : String) : List (List Char) :=
  (splitPred Char.isWhitespace s.data).filter (fun t => !t.isEmpty)

/-- The title keyword set of the Job Title Match algorithm:
`set(title.split())`. -/
def titleKeywords (s : String) : List (List Char) :=
  (pySplit s).dedup

/-- Jaccard similarity of two keyword sets:
`len(intersection) / len(union)`.  Modelled from the spec: a pair of empty
keyword sets scores 0 instead of dividing by zero. -/
def jaccard (a b : List (List Char)) : ℚ :=
  let ad := a.dedup
  let bd := b.dedup
  let u := ((ad ++ bd).dedup).length
  if u = 0 then 0 else ((ad.filter bd.contains).length : ℚ) / (u : ℚ)

/-- Job Title Match: best Jaccard similarity of the job title against each
prior title, boosted by 1.5 and capped at 1, on a 0-100 scale; 0 when the
candidate has no experience entries. -/
def titleScore (jobTitle : String) (exps : List ExperienceEntry) : ℚ :=
  let jk := titleKeywords jobTitle
  let best := (exps.map (fun e => jaccard jk (titleKeywords e.title))).foldl max 0
  (min (best * (3 / 2)) 1) * 100

/-- Modelled from the spec: the stop-word table of the keyword extractor
(spec 4.1); the concrete table of the AI service is not in the repository
snapshot. -/
def stopwords : List String :=
  ["the", "a", "an", "and", "or", "for", "with", "to", "of", "in", "on",
   "at", "is", "are", "be", "as", "by", "we", "you", "our"]

/-- Modelled from the spec: keyword extraction (spec 4.1) — lower-case,
split on non-alphanumeric characters, drop too-short tokens and
stop-words; the AI-service extractor itself is not in the repository
snapshot. -/
def extractKeywords (s : String) : List (List Char) :=
  (((splitPred (fun c => !c.isAlphanum) (lowerChars s)).filter
      (fun t => decide (3 ≤ t.length) &&
        !(stopwords.any (fun w => w.data == t)))).dedup)

/-- The combined candidate-profile text of the Job Description Match
algorithm: skills, experience titles and descriptions, and education
degree strings, concatenated. -/
def combinedText (c : CandidateProfile) : String :=
  String.intercalate spaceStr
    (c.skills ++ c.experience.map (fun e => e.title) ++
      c.experience.map (fun e => e.description) ++
      c.education.map (fun e => e.degree))

/-- Job Description Match: the fraction of job-description keywords that
occur in the combined candidate text, boosted by 1.2 and capped at 1, on a
0-100 scale; 0 when the description yields no keywords. -/
def descriptionScore (desc : String) (c : CandidateProfile) : ℚ :=
  let ks := extractKeywords desc
  if ks.length = 0 then 0
  else
    let txt := lowerChars (combinedText c)
    let m := (ks.filter (fun k => infixOf k txt)).length
    (min ((m : ℚ) / (ks.length : ℚ) * (6 / 5)) 1) * 100

/-- Number of target skills matched by the candidate under exact
case-insensitive string equality (`candidate_skills ∩ required_skills`,
counted over the target list). -/
def matchedSkillCount (candidateSkills targetSkills : List String) : Nat :=
  (targetSkills.filter
    (fun t => candidateSkills.any (fun s => lowerChars s == lowerChars t))).length

/-- Skill-dimension score: `matchedCount / totalRequired` on a 0-100
scale.  The zero-denominator clause is modelled from the spec (spec 4.2):
an empty target list scores 0 rather than dividing by zero. -/
def skillScore (candidateSkills targetSkills : List String) : ℚ :=
  if targetSkills.length = 0 then 0
  else (matchedSkillCount candidateSkills targetSkills : ℚ) /
         (targetSkills.length : ℚ) * 100

/-- Years of Experience Match (README algorithm): full score once the
candidate meets the requirement, otherwise proportional
`(candidate_years / required_years) * 100`. -/
def yearsExperienceScore (candidateYears requiredYears : ℚ) : ℚ :=
  if requiredYears ≤ candidateYears then 100
  else candidateYears / requiredYears * 100

/-- Keywords of education level 5. -/
def eduWords5 : List String := ["phd", "doctorate"]

/-- Keywords of education level 4. -/
def eduWords4 : List String := ["master", "mba"]

/-- Keywords of education level 3. -/
def eduWords3 : List String := ["bachelor"]

/-- Keywords of education level 2. -/
def eduWords2 : List String := ["associate"]

/-- Keywords of education level 1. -/
def eduWords1 : List String := ["diploma", "certificate"]

/-- The ordinal education level of a free-text degree description, by
case-insensitive keyword detection (README hierarchy table); unrecognized
text is level 0. -/
def educationLevel (text : String) : Nat :=
  if eduWords5.any (lowerContains text) then 5
  else if eduWords4.any (lowerContains text) then 4
  else if eduWords3.any (lowerContains text) then 3
  else if eduWords2.any (lowerContains text) then 2
  else if eduWords1.any (lowerContains text) then 1
  else 0

/-- The candidate's education level: the highest level over all entries
(0 when there are none). -/
def candidateEduLevel (edu : List EducationEntry) : Nat :=
  (edu.map (fun e => educationLevel e.degree)).foldl max 0

/-- Education Match (README algorithm): meeting or exceeding the required
level scores 100, one level below scores 70, anything lower scores 40.
An empty (or unrecognized) requirement derives level 0, which every
candidate meets. -/
def educationScore (requiredEducation : String) (edu : List EducationEntry) : ℚ :=
  let r := educationLevel requiredEducation
  let c := candidateEduLevel edu
  if r ≤ c then 100 else if c + 1 = r then 70 else 40

/-! ## Aggregation, reasoning and ranking -/

/-- The fixed dimension weights (spec 4.5 / README weighted total). -/
structure ScoreWeights where
  jobTitle : ℚ
  jobDescription : ℚ
  requiredSkills : ℚ
  preferredSkills : ℚ
  yearsExperience : ℚ
  education : ℚ

/-- The default weights: 0.15, 0.15, 0.25, 0.10, 0.20, 0.15. -/
def defaultWeights : ScoreWeights :=
  ⟨3 / 20, 3 / 20, 1 / 4, 1 / 10, 1 / 5, 3 / 20⟩

/-- The per-candidate scoring breakdown (spec data model `ScoringResult`),
carrying the raw ratios the reasoning text renders. -/
structure ScoringResult where
  jobTitleScore : ℚ
  descriptionScore : ℚ
  requiredSkillsScore : ℚ
  preferredSkillsScore : ℚ
  yearsExperienceScore : ℚ
  educationScore : ℚ
  requiredMatched : Nat
  requiredTotal : Nat
  preferredMatched : Nat
  preferredTotal : Nat
  candidateYears : ℚ
  requiredYears : ℚ
  totalScore : ℚ

/-- Modelled from the spec: the full per-candidate scorer of the
AI-service ranking engine (its code is absent from the repository
snapshot); each dimension follows the README algorithm embedded above,
the years derivation is reproduced per spec 4.3, and the total is the
weighted sum with the default weights. -/
def scoreCandidate (j : JobRequirement) (c : CandidateProfile) (now : YM) :
    ScoringResult :=
  let t := titleScore j.title c.experience
  let d := descriptionScore j.description c
  let rs := skillScore c.skills j.requiredSkills
  let ps := skillScore c.skills j.preferredSkills
  let cy := specYearsOfExperience c.experience now
  let ys := yearsExperienceScore cy j.minYearsExperience
  let es := educationScore j.requiredEducation c.education
  { jobTitleScore := t
    descriptionScore := d
    requiredSkillsScore := rs
    preferredSkillsScore := ps
    yearsExperienceScore := ys
    educationScore := es
    requiredMatched := matchedSkillCount c.skills j.requiredSkills
    requiredTotal := j.requiredSkills.length
    preferredMatched := matchedSkillCount c.skills j.preferredSkills
    preferredTotal := j.preferredSkills.length
    candidateYears := cy
    requiredYears := j.minYearsExperience
    totalScore :=
      defaultWeights.jobTitle * t + defaultWeights.jobDescription * d +
        defaultWeights.requiredSkills * rs +
        defaultWeights.preferredSkills * ps +
        defaultWeights.yearsExperience * ys +
        defaultWeights.education * es }

/-- Render a percentage as the nearest whole number (JavaScript
`Math.round` semantics). -/
def pctStr (q : ℚ) : String :=
  toString (⌊q + 1 / 2⌋ : Int)

/-- Render a rational exactly (used for the years figures). -/
def qToString (q : ℚ) : String :=
  if q.den = 1 then toString q.num
  else toString q.num ++ "/" ++ toString q.den

/-- Modelled from the spec: the reasoning generator (spec 4.6 and the
README reasoning example) — one fragment per dimension in the fixed order
title, description, required skills, preferred skills, years, education,
as a pure function of the `ScoringResult`. -/
def renderReasoning (r : ScoringResult) : String :=
  "Job title match: " ++ pctStr r.jobTitleScore ++
    "%. Description match: " ++ pctStr r.descriptionScore ++
    "%. " ++ toString r.requiredMatched ++ "/" ++ toString r.requiredTotal ++
    " required skills (" ++ pctStr r.requiredSkillsScore ++
    "%). " ++ toString r.preferredMatched ++ "/" ++ toString r.preferredTotal ++
    " preferred skills (" ++ pctStr r.preferredSkillsScore ++
    "%). " ++ qToString r.candidateYears ++ "yrs experience (required: " ++
    qToString r.requiredYears ++ "yrs, " ++ pctStr r.yearsExperienceScore ++
    "%). Education: " ++ pctStr r.educationScore ++ "%."

/-- Insert an element into a list kept in descending score order, passing
over strictly greater scores only, so that an element inserted later (an
earlier input element, under `foldr`) lands before equal scores already
present. -/
def insertDescBy (f : α → ℚ) (x : α) : List α → List α
  | [] => [x]
  | y :: ys => if f x < f y then y :: insertDescBy f x ys else x :: y :: ys

/-- Stable descending insertion sort by a score function. -/
def sortDescBy (f : α → ℚ) (l : List α) : List α :=
  l.foldr (insertDescBy f) []

/-- Modelled from the spec: the ranking orchestrator (spec 4.7; the
AI-service engine code is absent from the repository snapshot) — score
every candidate independently against one shared `now`, then sort the
annotated list by descending total score with a stable sort. -/
def rank (j : JobRequirement) (cands : List CandidateProfile) (now : YM) :
    List (CandidateProfile × ScoringResult) :=
  sortDescBy (fun p => p.2.totalScore)
    (cands.map (fun c => (c, scoreCandidate j c now)))

/-! ## Input validation (`RankCandidatesDto` and the frontend form) -/

/-- A JSON value as the validation layer sees it. -/
inductive JsValue where
  | undef : JsValue
  | nullVal : JsValue
  | strVal : String → JsValue
  | numVal : ℚ → JsValue
  | boolVal : Bool → JsValue
  | arrVal : List JsValue → JsValue

/-- Modelled from class-validator semantics: `IsNotEmpty` accepts every
value other than the empty string, `null` and `undefined`. -/
def isNotEmptyCheck : JsValue → Bool
  | JsValue.undef => false
  | JsValue.nullVal => false
  | JsValue.strVal s => !(s == emptyStr)
  | _ => true

/-- Modelled from class-validator semantics: `IsArray` accepts exactly the
arrays. -/
def isArrayCheck : JsValue → Bool
  | JsValue.arrVal _ => true
  | _ => false

/-- The validators the DTO places on `requiredSkills`:
`@IsArray()` and `@IsNotEmpty()` (from `rank-candidates.dto.ts`). -/
def requiredSkillsFieldValid (v : JsValue) : Bool :=
  isArrayCheck v && isNotEmptyCheck v

/-- The frontend guard of `RankingForm.handleSubmit`: after dropping
blank entries, at least one required skill must remain. -/
def frontendAcceptsRequiredSkills (skills : List String) : Bool :=
  !((skills.filter (fun s => s.data.any (fun c => !c.isWhitespace))).isEmpty)

/-- Decidable equality for `Except`, so that concrete runs of the
embedded functions can be compared by evaluation. -/
instance {ε α : Type} [DecidableEq ε] [DecidableEq α] : DecidableEq (Except ε α)
  | Except.error u, Except.error v =>
    match decEq u v with
    | isTrue h => isTrue (by rw [h])
    | isFalse h => isFalse (fun he => h (Except.error.inj he))
  | Except.error _, Except.ok _ => isFalse (fun he => Except.noConfusion he)
  | Except.ok _, Except.error _ => isFalse (fun he => Except.noConfusion he)
  | Except.ok a, Except.ok b =>
    match decEq a b with
    | isTrue h => isTrue (by rw [h])
    | isFalse h => isFalse (fun he => h (Except.ok.inj he))

/-! ## Concrete sample values used by the witnesses and counterexamples -/

/-- January 2024, a concrete evaluation instant. -/
def ym2024 : YM := ⟨2024, 0⟩

/-- January 2025, a later instant for the ticking clock. -/
def ym2025 : YM := ⟨2025, 0⟩

/-- A well-formed ISO date string. -/
def iso2019 : String := "2019-01-01"

/-- A well-formed ISO date string. -/
def iso2020 : String := "2020-01-01"

/-- A string `new Date` cannot parse. -/
def badDateStr : String := "notadate"

/-- An entry whose start date is malformed. -/
def badStartEntry : ExperienceEntry :=
  ⟨"Engineer", "ACME", badDateStr, some iso2020, emptyStr⟩

/-- An entry whose end date is missing. -/
def missingEndEntry : ExperienceEntry :=
  ⟨"Engineer", "ACME", iso2019, none, emptyStr⟩

/-- A well-formed entry whose end date precedes its start date. -/
def negEntry : ExperienceEntry :=
  ⟨"Engineer", "ACME", "2023-05-01", some iso2020, emptyStr⟩

/-- An ongoing position (end date `present`). -/
def presentEntry : ExperienceEntry :=
  ⟨"Engineer", "ACME", iso2020, some presentStr, emptyStr⟩

/-- A clock frozen at January 2024. -/
def clockA : Nat → YM := fun _ => ym2024

/-- A clock that ticks from January 2024 to January 2025 after its first
read. -/
def clockB : Nat → YM := fun k => if k = 0 then ym2024 else ym2025

/-- A sample well-formed experience list (18 months). -/
def sampleExps : List ExperienceEntry :=
  [⟨"Developer", "ACME", "2020-01-15", some "2021-07-01", emptyStr⟩]

/-- The job requirement of the spec's end-to-end example. -/
def sampleJob : JobRequirement :=
  ⟨"Senior iOS Developer",
   "Looking for experienced iOS developer with Swift and SwiftUI",
   ["Swift", "iOS", "UIKit", "CoreData", "REST API"],
   ["SwiftUI", "Combine", "TDD"], 5, "Bachelor"⟩

/-- The candidate of the spec's end-to-end example. -/
def sampleCand : CandidateProfile :=
  ⟨"c1", ["Swift", "iOS", "UIKit", "SwiftUI", "Combine"],
   [⟨"iOS Engineer", "Tech Co", "2018-01-01", some "2024-01-01",
     "Built apps in Swift"⟩,
    ⟨"Mobile Developer", "App Inc", "2016-01-01", some "2018-01-01",
     "Mobile work"⟩],
   [⟨"Bachelor of Computer Science", "State University", "2012-09-01",
     "2016-06-01"⟩], 6⟩

/-- A concrete evaluation instant for the determinism witness. -/
def sampleNow : YM := ⟨2026, 0⟩

/-- The scoring result of the sample pair. -/
def sampleResult : ScoringResult := scoreCandidate sampleJob sampleCand sampleNow

/-- A sample education history one level below a Master requirement. -/
def sampleEduList : List EducationEntry :=
  [⟨"Bachelor of Science", "State University", "2012", "2016"⟩]

/-- A sample education requirement. -/
def masterReq : String := "Master"

/-- Sample required skills. -/
def sampleReqSkills : List String := ["Swift", "iOS"]

/-- Sample candidate skills covering the required ones case-insensitively. -/
def sampleCandSkills : List String := ["swift", "ios", "UIKit"]

/-! # Theorems -/

/-- C1: Scoring is deterministic and pure — with identical job
requirement, candidate profile and evaluation instant, two evaluations
yield the identical `totalScore`, and rendering the reasoning string twice
from the same `ScoringResult` yields byte-identical text.  (The embedded
scorer is a function, so the outputs agree by congruence; no hidden state
enters the computation.) -/
theorem scoring_deterministic (j j' : JobRequirement)
    (c c' : CandidateProfile) (n n' : YM) (r r' : ScoringResult)
    (hj : j = j') (hc : c = c') (hn : n = n') (hr : r = r') :
    (scoreCandidate j c n).totalScore = (scoreCandidate j' c' n').totalScore
      ∧ renderReasoning r = renderReasoning r' := by
  subst hj
  subst hc
  subst hn
  subst hr
  exact ⟨rfl, rfl⟩

/-- Witness for C1 at the spec's end-to-end example pair. -/
theorem scoring_deterministic_witness :
    (scoreCandidate sampleJob sampleCand sampleNow).totalScore =
        (scoreCandidate sampleJob sampleCand sampleNow).totalScore
      ∧ renderReasoning sampleResult = renderReasoning sampleResult :=
  scoring_deterministic sampleJob sampleJob sampleCand sampleCand
    sampleNow sampleNow sampleResult sampleResult rfl rfl rfl rfl

/-- C2 (evaluation at the failing inputs): an entry with a malformed
`startDate` does not contribute 0 months — it turns the whole result into
`NaN` — and an entry with a missing `endDate` makes the derivation throw,
contradicting the fail-soft claim. -/
theorem calcYears_malformed_eval :
    calculateYearsOfExperience (some [badStartEntry]) ym2024 = Except.ok none
      ∧ calculateYearsOfExperience (some [badStartEntry]) ym2024 ≠
          Except.ok (some 0)
      ∧ calculateYearsOfExperience (some [missingEndEntry]) ym2024 =
          Except.error () := by
  have h1 : addMonths ym2024 [badStartEntry] = Except.ok none := by decide
  have h2 : addMonths ym2024 [missingEndEntry] = Except.error () := by decide
  refine ⟨?_, ?_, ?_⟩
  · show calcFromMonths (addMonths ym2024 [badStartEntry]) = _
    rw [h1]
    rfl
  · show calcFromMonths (addMonths ym2024 [badStartEntry]) ≠ _
    rw [h1]
    intro h
    exact Option.noConfusion (Except.ok.inj h)
  · show calcFromMonths (addMonths ym2024 [missingEndEntry]) = _
    rw [h2]
    rfl

/-- C8 (evaluation at the failing input): the backend DTO validation of
`requiredSkills` (`IsArray` plus `IsNotEmpty`) accepts the empty array —
class-validator's `IsNotEmpty` rejects only the empty string, `null` and
`undefined` — so a direct API request with an empty list is not rejected
before scoring; only the frontend form blocks it. -/
theorem requiredSkills_validation_eval :
    requiredSkillsFieldValid (JsValue.arrVal []) = true
      ∧ frontendAcceptsRequiredSkills [] = false := by
  exact ⟨rfl, rfl⟩

/-- C10: the derivation does not clamp per-entry contributions at zero —
an entry whose end date precedes its start date contributes negative
months (here minus 40), and the derived years value is negative
(minus 3.3). -/
theorem calcYears_negative_interval :
    calculateYearsOfExperience (some [negEntry]) ym2024 =
        Except.ok (some (-(33 / 10)))
      ∧ (-(33 / 10) : ℚ) < 0 := by
  constructor
  · show calcFromMonths (addMonths ym2024 [negEntry]) = _
    rw [show addMonths ym2024 [negEntry] = Except.ok (some (-40)) from by decide]
    show Except.ok (some (yearsFn (-40))) = _
    have h : yearsFn (-40) = -(33 / 10) := by
      norm_num [yearsFn, jsRound10]
    rw [h]
  · norm_num

/-- C4: holding the requirement fixed, `yearsExperienceScore` is
monotonically non-decreasing in the candidate years; it equals 100 (and
never more) once the candidate meets the requirement, equals
`(candidateYears / requiredYears) * 100` otherwise, and is 100 whenever
the requirement is zero. -/
theorem yearsScore_spec (ry cy cy1 cy2 : ℚ) (hry : 0 ≤ ry) :
    (0 ≤ cy1 → cy1 ≤ cy2 →
        yearsExperienceScore cy1 ry ≤ yearsExperienceScore cy2 ry)
      ∧ (ry ≤ cy → yearsExperienceScore cy ry = 100)
      ∧ (cy < ry → yearsExperienceScore cy ry = cy / ry * 100)
      ∧ (0 ≤ cy → yearsExperienceScore cy 0 = 100) := by
  refine ⟨?_, ?_, ?_, ?_⟩
  · intro h1 h12
    unfold yearsExperienceScore
    by_cases ha : ry ≤ cy1
    · rw [if_pos ha, if_pos (le_trans ha h12)]
    · rw [if_neg ha]
      push_neg at ha
      have hrypos : 0 < ry := lt_of_le_of_lt h1 ha
      by_cases hb : ry ≤ cy2
      · rw [if_pos hb]
        have hdiv : cy1 / ry ≤ 1 := (div_le_one hrypos).mpr (le_of_lt ha)
        calc cy1 / ry * 100 ≤ 1 * 100 :=
              mul_le_mul_of_nonneg_right hdiv (by norm_num)
          _ = 100 := by norm_num
      · rw [if_neg hb]
        exact mul_le_mul_of_nonneg_right
          ((div_le_div_right hrypos).mpr h12) (by norm_num)
  · intro h
    unfold yearsExperienceScore
    rw [if_pos h]
  · intro h
    unfold yearsExperienceScore
    rw [if_neg (not_le.mpr h)]
  · intro h
    unfold yearsExperienceScore
    rw [if_pos h]

/-- Witness for C4: six candidate years against a five-year requirement
score 100, and one year scores no more than six do. -/
theorem yearsScore_spec_witness :
    yearsExperienceScore 1 5 ≤ yearsExperienceScore 6 5
      ∧ yearsExperienceScore 6 5 = 100 := by
  have h := yearsScore_spec 5 6 1 6 (by norm_num)
  exact ⟨h.1 (by norm_num) (by norm_num), h.2.1 (by norm_num)⟩

/-- C5: with the education level derived from the keyword table (phd or
doctorate 5, master or mba 4, bachelor 3, associate 2, diploma or
certificate 1, otherwise 0; the highest match over the entries), an empty
requirement scores 100 regardless of the candidate, meeting or exceeding
the required level scores 100, one level below scores 70, and anything
lower scores 40. -/
theorem educationScore_spec (req : String) (edu : List EducationEntry) :
    (req = emptyStr → educationScore req edu = 100)
      ∧ (educationLevel req ≤ candidateEduLevel edu →
          educationScore req edu = 100)
      ∧ (candidateEduLevel edu + 1 = educationLevel req →
          educationScore req edu = 70)
      ∧ (candidateEduLevel edu + 1 < educationLevel req →
          educationScore req edu = 40) := by
  refine ⟨?_, ?_, ?_, ?_⟩
  · intro hreq
    subst hreq
    have h0 : educationLevel emptyStr = 0 := by decide
    simp only [educationScore, h0]
    rw [if_pos (Nat.zero_le _)]
  · intro hle
    simp only [educationScore]
    rw [if_pos hle]
  · intro heq
    have hnot : ¬ educationLevel req ≤ candidateEduLevel edu := by omega
    simp only [educationScore]
    rw [if_neg hnot, if_pos heq]
  · intro hlt
    have h1 : ¬ educationLevel req ≤ candidateEduLevel edu := by omega
    have h2 : ¬ candidateEduLevel edu + 1 = educationLevel req := by omega
    simp only [educationScore]
    rw [if_neg h1, if_neg h2]

/-- Witness for C5: a Bachelor history against a Master requirement is one
level below and scores 70. -/
theorem educationScore_spec_witness :
    educationScore masterReq sampleEduList = 70 :=
  (educationScore_spec masterReq sampleEduList).2.2.1 (by decide)

/-- C6: the skill-dimension score is the matched fraction on a 0-100
scale under exact case-insensitive matching — a candidate covering every
target skill scores 100, a candidate with no overlap scores 0, and an
empty target list scores 0 rather than erroring. -/
theorem skillScore_spec (cand req : List String) :
    (req ≠ [] → (∀ r ∈ req, ∃ s ∈ cand, lowerChars s = lowerChars r) →
        skillScore cand req = 100)
      ∧ ((∀ r ∈ req, ∀ s ∈ cand, lowerChars s ≠ lowerChars r) →
          skillScore cand req = 0)
      ∧ skillScore cand [] = 0 := by
  refine ⟨?_, ?_, rfl⟩
  · intro hne hsup
    have hfil :
        req.filter (fun t => cand.any (fun s => lowerChars s == lowerChars t)) =
          req := by
      rw [List.filter_eq_self]
      intro a ha
      rw [List.any_eq_true]
      obtain ⟨s, hs, he⟩ := hsup a ha
      exact ⟨s, hs, by simpa using he⟩
    have hlen : req.length ≠ 0 := by
      intro h0
      exact hne (List.length_eq_zero.mp h0)
    unfold skillScore
    rw [if_neg hlen]
    unfold matchedSkillCount
    rw [hfil, div_self (by exact_mod_cast hlen), one_mul]
  · intro hno
    by_cases h0 : req.length = 0
    · unfold skillScore
      rw [if_pos h0]
    · have hfil :
          req.filter (fun t => cand.any (fun s => lowerChars s == lowerChars t)) =
            [] := by
        rw [List.filter_eq_nil]
        intro a ha hcon
        rw [List.any_eq_true] at hcon
        obtain ⟨s, hs, hb⟩ := hcon
        exact hno a ha s hs (by simpa using hb)
      unfold skillScore
      rw [if_neg h0]
      unfold matchedSkillCount
      rw [hfil]
      norm_num

/-- Witness for C6: a candidate covering both required skills up to case
scores 100. -/
theorem skillScore_spec_witness :
    skillScore sampleCandSkills sampleReqSkills = 100 :=
  (skillScore_spec sampleCandSkills sampleReqSkills).1 (by decide) (by decide)

/-- On a well-formed entry the loop body produces exactly the spec's
month count. -/
theorem monthsOf_wf (now : YM) (e : ExperienceEntry) (h : entryWF e = true) :
    monthsOf now e = Except.ok (some (specEntryMonths now e)) := by
  unfold entryWF at h
  cases hed : e.endDate with
  | none =>
    rw [hed] at h
    simp at h
  | some ed =>
    rw [hed] at h
    rw [Bool.and_eq_true] at h
    obtain ⟨hs, hend⟩ := h
    obtain ⟨s, hsd⟩ := Option.isSome_iff_exists.mp hs
    simp only [monthsOf, specEntryMonths, hed, hsd]
    by_cases hp : (lowerChars ed == presentStr.data) = true
    · simp [hp]
    · rw [Bool.or_eq_true] at hend
      rcases hend with hpp | hie
      · exact absurd hpp hp
      · obtain ⟨en, hen⟩ := Option.isSome_iff_exists.mp hie
        simp [hp, hen]

/-- On a list of well-formed entries the summation loop produces exactly
the sum of the spec's per-entry month counts. -/
theorem addMonths_wf (now : YM) :
    ∀ exps : List ExperienceEntry, (∀ e ∈ exps, entryWF e = true) →
      addMonths now exps =
        Except.ok (some ((exps.map (specEntryMonths now)).sum)) := by
  intro exps
  induction exps with
  | nil =>
    intro _
    simp [addMonths]
  | cons e rest ih =>
    intro h
    have he := h e (List.mem_cons_self e rest)
    have hrest := ih (fun x hx => h x (List.mem_cons_of_mem e hx))
    simp [addMonths, monthsOf_wf now e he, hrest, combineNaN]

/-- C3: on experience lists with well-formed dates the derivation equals
the spec formula — the sum over entries of
`(endYear - startYear) * 12 + (endMonth - startMonth)` months, with a
case-insensitive `present` end date replaced by the evaluation instant,
divided by 12 and rounded to one decimal — and an empty or absent
experience list yields 0. -/
theorem calcYears_spec_refined (exps : List ExperienceEntry) (now : YM)
    (h : wellFormed exps = true) :
    calculateYearsOfExperience (some exps) now =
        Except.ok (some (specYearsOfExperience exps now))
      ∧ calculateYearsOfExperience (some []) now = Except.ok (some 0)
      ∧ calculateYearsOfExperience none now = Except.ok (some 0) := by
  refine ⟨?_, rfl, rfl⟩
  cases exps with
  | nil =>
    show Except.ok (some 0) = _
    have h0 : specYearsOfExperience [] now = 0 := by
      norm_num [specYearsOfExperience, jsRound10]
    rw [h0]
  | cons e rest =>
    have hall : ∀ x ∈ e :: rest, entryWF x = true := by
      rw [wellFormed, List.all_eq_true] at h
      intro x hx
      exact h x hx
    have hadd := addMonths_wf now (e :: rest) hall
    show calcFromMonths (addMonths now (e :: rest)) = _
    rw [hadd]
    rfl

/-- Witness for C3 at a concrete 18-month history. -/
theorem calcYears_spec_refined_witness :
    wellFormed sampleExps = true
      ∧ (calculateYearsOfExperience (some sampleExps) ym2024 =
            Except.ok (some (specYearsOfExperience sampleExps ym2024))
          ∧ calculateYearsOfExperience (some []) ym2024 = Except.ok (some 0)
          ∧ calculateYearsOfExperience none ym2024 = Except.ok (some 0)) :=
  ⟨by decide, calcYears_spec_refined sampleExps ym2024 (by decide)⟩

/-- Under a constant clock, one clocked loop-body step computes the same
month count as the single-instant body. -/
theorem monthsOfClocked_fst (clock : Nat → YM) (t : YM)
    (h : ∀ k, clock k = t) (k : Nat) (e : ExperienceEntry) :
    Except.map Prod.fst (monthsOfClocked clock k e) = monthsOf t e := by
  simp only [monthsOfClocked, monthsOf]
  cases e.endDate with
  | none => rfl
  | some ed =>
    by_cases hp : (lowerChars ed == presentStr.data) = true
    · simp only [hp, if_true]
      rw [h k]
      cases parseDate e.startDate <;> rfl
    · simp only [hp, if_false, Bool.false_eq_true]
      cases parseDate e.startDate <;> cases parseDate ed <;> rfl

/-- Under a constant clock the clocked summation loop computes the same
month total as the single-instant loop, whatever read index it starts at. -/
theorem addMonthsClocked_fst (clock : Nat → YM) (t : YM)
    (h : ∀ k, clock k = t) :
    ∀ (exps : List ExperienceEntry) (k : Nat),
      Except.map Prod.fst (addMonthsClocked clock exps k) =
        addMonths t exps := by
  intro exps
  induction exps with
  | nil =>
    intro k
    rfl
  | cons e rest ih =>
    intro k
    have hm := monthsOfClocked_fst clock t h k e
    cases hmc : monthsOfClocked clock k e with
    | error u =>
      rw [hmc] at hm
      have hmo : monthsOf t e = Except.error u := by
        rw [← hm]
        rfl
      simp [addMonthsClocked, addMonths, hmc, hmo, Except.map]
    | ok p =>
      obtain ⟨m, k'⟩ := p
      rw [hmc] at hm
      have hmo : monthsOf t e = Except.ok m := by
        rw [← hm]
        rfl
      have ih' := ih k'
      cases hac : addMonthsClocked clock rest k' with
      | error u =>
        rw [hac] at ih'
        have hao : addMonths t rest = Except.error u := by
          rw [← ih']
          rfl
        simp [addMonthsClocked, addMonths, hmc, hmo, hac, hao, Except.map]
      | ok q =>
        obtain ⟨tl, k''⟩ := q
        rw [hac] at ih'
        have hao : addMonths t rest = Except.ok tl := by
          rw [← ih']
          rfl
        simp [addMonthsClocked, addMonths, hmc, hmo, hac, hao, Except.map]

/-- Counterexample to C9: two clocks agreeing on their first read but not
on their second produce different results on a history with two ongoing
positions, so the wall clock is not read exactly once per invocation —
`new Date()` is evaluated once per `present` entry. -/
theorem now_read_once_cex :
    clockA 0 = clockB 0
      ∧ calcYearsClocked (some [presentEntry, presentEntry]) clockA ≠
          calcYearsClocked (some [presentEntry, presentEntry]) clockB := by
  constructor
  · rfl
  · have ha : addMonthsClocked clockA [presentEntry, presentEntry] 0 =
        Except.ok (some 96, 2) := by decide
    have hb : addMonthsClocked clockB [presentEntry, presentEntry] 0 =
        Except.ok (some 108, 2) := by decide
    show calcFromMonthsClocked (addMonthsClocked clockA [presentEntry, presentEntry] 0) ≠
        calcFromMonthsClocked (addMonthsClocked clockB [presentEntry, presentEntry] 0)
    rw [ha, hb]
    show Except.ok (some (yearsFn 96)) ≠ Except.ok (some (yearsFn 108))
    have h96 : yearsFn 96 = 8 := by norm_num [yearsFn, jsRound10]
    have h108 : yearsFn 108 = 9 := by norm_num [yearsFn, jsRound10]
    rw [h96, h108]
    intro h
    have := Option.some.inj (Except.ok.inj h)
    norm_num at this

/-- C9 amended: when every clock read returns the same instant — in
particular when no month boundary is crossed during the computation — the
per-entry reads are indistinguishable from a single read, and the clocked
derivation coincides with the single-instant one. -/
theorem calcYears_clock_const (experience : Option (List ExperienceEntry))
    (clock : Nat → YM) (t : YM) (h : ∀ k, clock k = t) :
    calcYearsClocked experience clock = calculateYearsOfExperience experience t := by
  cases experience with
  | none => rfl
  | some exps =>
    cases exps with
    | nil => rfl
    | cons e rest =>
      have hfst := addMonthsClocked_fst clock t h (e :: rest) 0
      cases hac : addMonthsClocked clock (e :: rest) 0 with
      | error u =>
        rw [hac] at hfst
        have hao : addMonths t (e :: rest) = Except.error u := by
          rw [← hfst]
          rfl
        show calcFromMonthsClocked (addMonthsClocked clock (e :: rest) 0) =
            calcFromMonths (addMonths t (e :: rest))
        rw [hac, hao]
        rfl
      | ok p =>
        obtain ⟨m, k'⟩ := p
        rw [hac] at hfst
        have hao : addMonths t (e :: rest) = Except.ok m := by
          rw [← hfst]
          rfl
        show calcFromMonthsClocked (addMonthsClocked clock (e :: rest) 0) =
            calcFromMonths (addMonths t (e :: rest))
        rw [hac, hao]
        rfl

/-- Witness for the amended C9 at a frozen clock. -/
theorem calcYears_clock_const_witness :
    calcYearsClocked (some [presentEntry]) (fun _ => ym2024) =
      calculateYearsOfExperience (some [presentEntry]) ym2024 :=
  calcYears_clock_const (some [presentEntry]) (fun _ => ym2024) ym2024
    (fun _ => rfl)

/-- Membership after insertion: exactly the inserted element is added. -/
theorem mem_insertDescBy (f : α → ℚ) (x : α) (l : List α) (a : α) :
    a ∈ insertDescBy f x l ↔ a = x ∨ a ∈ l := by
  induction l with
  | nil => simp [insertDescBy]
  | cons y ys ih =>
    simp only [insertDescBy]
    split <;> simp only [List.mem_cons, ih] <;> tauto

/-- Insertion preserves descending order by the score function. -/
theorem pairwise_insertDescBy (f : α → ℚ) (x : α) (l : List α)
    (h : l.Pairwise (fun a b => f b ≤ f a)) :
    (insertDescBy f x l).Pairwise (fun a b => f b ≤ f a) := by
  induction l with
  | nil => simp [insertDescBy]
  | cons y ys ih =>
    rw [List.pairwise_cons] at h
    obtain ⟨hy, hys⟩ := h
    simp only [insertDescBy]
    split
    · rename_i hlt
      rw [List.pairwise_cons]
      refine ⟨?_, ih hys⟩
      intro a ha
      rw [mem_insertDescBy] at ha
      rcases ha with rfl | ha
      · exact le_of_lt hlt
      · exact hy a ha
    · rename_i hge
      push_neg at hge
      rw [List.pairwise_cons]
      refine ⟨?_, List.pairwise_cons.mpr ⟨hy, hys⟩⟩
      intro a ha
      rcases List.mem_cons.mp ha with rfl | ha
      · exact hge
      · exact le_trans (hy a ha) hge

/-- The insertion sort produces a list in descending score order. -/
theorem sortDescBy_pairwise (f : α → ℚ) (l : List α) :
    (sortDescBy f l).Pairwise (fun a b => f b ≤ f a) := by
  induction l with
  | nil => simp [sortDescBy]
  | cons x xs ih => exact pairwise_insertDescBy f x _ ih

/-- Filtering at any score value commutes with insertion: elements passed
over have strictly greater scores, so the inserted element lands in front
of the equal-scored ones. -/
theorem filter_insertDescBy (f : α → ℚ) (s : ℚ) (x : α) (l : List α) :
    (insertDescBy f x l).filter (fun a => decide (f a = s)) =
      if f x = s then x :: l.filter (fun a => decide (f a = s))
      else l.filter (fun a => decide (f a = s)) := by
  induction l with
  | nil =>
    by_cases hx : f x = s <;> simp [insertDescBy, hx]
  | cons y ys ih =>
    simp only [insertDescBy]
    split
    · rename_i hlt
      by_cases hx : f x = s
      · have hy : ¬ f y = s := by
          intro hy
          rw [hx, hy] at hlt
          exact lt_irrefl s hlt
        simp [List.filter_cons, hy, hx, ih]
      · by_cases hy : f y = s
        · simp [List.filter_cons, hy, hx, ih]
        · simp [List.filter_cons, hy, hx, ih]
    · by_cases hx : f x = s
      · simp [List.filter_cons, hx]
      · simp [List.filter_cons, hx]

/-- Filtering at any score value commutes with the whole sort: equal
scores keep their input order (stability). -/
theorem filter_sortDescBy (f : α → ℚ) (s : ℚ) (l : List α) :
    (sortDescBy f l).filter (fun a => decide (f a = s)) =
      l.filter (fun a => decide (f a = s)) := by
  induction l with
  | nil => rfl
  | cons x xs ih =>
    show (insertDescBy f x (sortDescBy f xs)).filter _ = _
    rw [filter_insertDescBy]
    by_cases hx : f x = s
    · simp [hx, List.filter_cons, ih]
    · simp [hx, List.filter_cons, ih]

/-- C7: `rank` returns the scored candidates in descending `totalScore`
order; the sort is stable — at every score value the filtered output
equals the filtered scored input, so equal-scored candidates keep their
relative input order — and an empty candidate list yields an empty
result. -/
theorem rank_sorted_stable (j : JobRequirement)
    (cands : List CandidateProfile) (now : YM) :
    ((rank j cands now).Pairwise
        (fun a b => b.2.totalScore ≤ a.2.totalScore))
      ∧ (∀ s : ℚ,
          (rank j cands now).filter (fun p => decide (p.2.totalScore = s)) =
            (cands.map (fun c => (c, scoreCandidate j c now))).filter
              (fun p => decide (p.2.totalScore = s)))
      ∧ rank j [] now = [] :=
  ⟨sortDescBy_pairwise _ _, fun s => filter_sortDescBy _ s _, rfl⟩
